import Mathlib

/-!
# Verification of the reddit-gallery-dl core pipeline

Shallow embedding of the repository's Go source (the revision the spec was
written from: the first revision recorded in `handlers.go`, `part_002`,
`part_003` and `part_004`).  Go strings are modelled as Lean `String`s and
all string primitives are re-implemented over `List Char`, mirroring the
behaviour of the Go standard-library functions the code calls on the ASCII
inputs this program manipulates.  Network I/O (HTTP responses, the redirect
`Location` header, per-asset fetch results, image decoding) is modelled by
explicit oracle parameters; everything else is translated directly from the
source.
-/

namespace RedditGalleryDL

/-! ## String primitives (models of the Go standard library) -/

/-- Model of `strings.HasPrefix` on character lists. -/
def isPrefixOfList : List Char → List Char → Bool
  | [], _ => true
  | _ :: _, [] => false
  | a :: as, b :: bs => a = b && isPrefixOfList as bs

/-- Model of `strings.Contains` on character lists. -/
def containsList (pat : List Char) : List Char → Bool
  | [] => pat.isEmpty
  | c :: rest => isPrefixOfList pat (c :: rest) || containsList pat rest

/-- Model of `strings.Contains s pat`. -/
def containsSubstr (s pat : String) : Bool :=
  containsList pat.data s.data

/-- Model of `strings.HasPrefix s pre`. -/
def startsWithStr (s pre : String) : Bool :=
  isPrefixOfList pre.data s.data

/-- The ASCII whitespace characters trimmed by `strings.TrimSpace` /
matched by `unicode.IsSpace` (the Unicode-only whitespace code points do
not occur in this program's inputs). -/
def isGoSpace (c : Char) : Bool :=
  c = ' ' || c = '\t' || c = '\n' || c = '\r' || c = '\x0b' || c = '\x0c'

/-- Drop the longest suffix of characters satisfying `p`. -/
def dropTrailing (p : Char → Bool) (cs : List Char) : List Char :=
  (cs.reverse.dropWhile p).reverse

/-- Model of `strings.TrimSpace`. -/
def trimSpace (s : String) : String :=
  String.mk (dropTrailing isGoSpace (s.data.dropWhile isGoSpace))

/-- Model of `strings.Trim s "/"`: remove leading and trailing slashes. -/
def trimSlashes (s : String) : String :=
  String.mk (dropTrailing (fun c => c = '/') (s.data.dropWhile (fun c => c = '/')))

/-- Accumulator-based splitter behind `splitSlash`. -/
def splitSlashAux : List Char → List Char → List String
  | [], acc => [String.mk acc.reverse]
  | '/' :: rest, acc => String.mk acc.reverse :: splitSlashAux rest []
  | c :: rest, acc => splitSlashAux rest (c :: acc)

/-- Model of `strings.Split s "/"`.  As in Go, the empty string splits to
`[""]` and adjacent separators produce empty fields. -/
def splitSlash (s : String) : List String :=
  splitSlashAux s.data []

/-- Cut a character list at the first occurrence of `sep`; the separator
itself is kept in neither part.  Second component is `none` when `sep`
does not occur (models `strings.Cut`). -/
def cutAtChar (sep : Char) : List Char → List Char × Option (List Char)
  | [] => ([], none)
  | c :: rest =>
    if c = sep then ([], some rest)
    else
      let (l, r) := cutAtChar sep rest
      (c :: l, r)

/-- Model of `strings.ToLower` (ASCII). -/
def toLowerStr (s : String) : String :=
  String.mk (s.data.map Char.toLower)

/-- Model of `strings.TrimRight s "/"`. -/
def trimRightSlashes (s : String) : String :=
  String.mk (dropTrailing (fun c => c = '/') s.data)

/-! ## URL model (of Go `net/url.Parse`)

The model covers the URL shapes this program manipulates: an optional
scheme, an optional `//authority`, a path, a query and a fragment, with no
percent-escape decoding (none of the claims' inputs contain escapes).
As in Go, `Host` keeps any port and drops any userinfo, `Path` and
`Fragment` exclude their delimiters, and parsing fails on control
characters, on an empty scheme (`:...`), on a space inside the host, and
on a colon in the first path segment of a scheme-less non-authority URL. -/

structure GoURL where
  scheme : String
  host : String
  path : String
  rawQuery : String
  fragment : String
deriving DecidableEq, Repr

/-- Is `c` valid inside a scheme after the first character
(`[a-zA-Z0-9+\-.]`)? -/
def isSchemeChar (c : Char) : Bool :=
  c.isAlpha || c.isDigit || c = '+' || c = '-' || c = '.'

/-- Scan for a `scheme:` prefix.  Returns `none` on a leading colon
(Go's "missing protocol scheme" error), `some (scheme, rest)` where
`scheme = ""` when no scheme prefix is present (models `url.getScheme`). -/
def getScheme (cs : List Char) : Option (List Char × List Char) :=
  match cs with
  | [] => some ([], [])
  | c :: _ =>
    if c = ':' then none
    else if !c.isAlpha then some ([], cs)
    else getSchemeAux cs []
where
  /-- Accumulate scheme characters until a colon or an invalid character. -/
  getSchemeAux : List Char → List Char → Option (List Char × List Char)
    | [], _ => some ([], [])   -- no colon found: the whole input is `rest`
    | c :: rest, acc =>
      if c = ':' then some (acc.reverse.map Char.toLower, rest)
      else if isSchemeChar c then getSchemeAux rest (c :: acc)
      else some ([], [])       -- invalid scheme char: no scheme, rest = input

/-- `getSchemeAux` signals "no scheme" with `some ([], [])`; the caller
must then fall back to the whole input.  This wrapper performs that
fallback so `parseGoURL` sees Go's actual contract. -/
def getSchemeFull (cs : List Char) : Option (List Char × List Char) :=
  match getScheme cs with
  | none => none
  | some ([], _) =>
    -- either genuinely empty input or the no-scheme fallback
    match cs with
    | [] => some ([], [])
    | c :: _ => if c = ':' then none else some ([], cs)
  | some (sch, rest) => some (sch, rest)

/-- The authority substring up to the first `/`; the remainder (starting
with `/`, or empty) is the path. -/
def splitAuthority (cs : List Char) : List Char × List Char :=
  (cs.takeWhile (fun c => c ≠ '/'), cs.dropWhile (fun c => c ≠ '/'))

/-- Host of an authority: the part after the last `@` (userinfo dropped,
port kept), as in `u.Host`. -/
def hostOfAuthority (cs : List Char) : List Char :=
  if cs.contains '@' then ((cs.reverse.takeWhile (fun c => c ≠ '@')).reverse)
  else cs

/-- Model of `url.Parse` on the subset described above. -/
def parseGoURL (s : String) : Option GoURL :=
  let cs := s.data
  if cs.any (fun c => c.toNat < 0x20 || c.toNat = 0x7f) then none
  else
    let (beforeFrag, fragPart) := cutAtChar '#' cs
    let frag := fragPart.getD []
    match getSchemeFull beforeFrag with
    | none => none
    | some (scheme, rest) =>
      let (rest, queryPart) := cutAtChar '?' rest
      let query := queryPart.getD []
      if isPrefixOfList ['/', '/'] rest then
        let (authority, path) := splitAuthority (rest.drop 2)
        let host := hostOfAuthority authority
        if host.contains ' ' then none
        else some ⟨String.mk scheme, String.mk host, String.mk path,
                   String.mk query, String.mk frag⟩
      else if scheme.isEmpty && (rest.takeWhile (fun c => c ≠ '/')).contains ':' then
        none  -- "first path segment in URL cannot contain colon"
      else if !scheme.isEmpty && !(isPrefixOfList ['/'] rest) then
        -- opaque form such as `mailto:x`: Host and Path are empty
        some ⟨String.mk scheme, "", "", String.mk query, String.mk frag⟩
      else
        some ⟨String.mk scheme, "", String.mk rest, String.mk query, String.mk frag⟩

example : parseGoURL "https://www.reddit.com/r/pics/s/abc?q=1#f" =
    some ⟨"https", "www.reddit.com", "/r/pics/s/abc", "q=1", "f"⟩ := by decide
example : parseGoURL "www.reddit.com/r/pics" =
    some ⟨"", "", "www.reddit.com/r/pics", "", ""⟩ := by decide
example : parseGoURL "http.reddit.com/r/pics/comments/abc" =
    some ⟨"", "", "http.reddit.com/r/pics/comments/abc", "", ""⟩ := by decide
example : (parseGoURL "https://www.reddit.com/r/a/b").map GoURL.host =
    some "www.reddit.com" := by decide

example : containsSubstr "www.reddit.com" "reddit.com" = true := by decide
example : containsSubstr "example.com" "reddit.com" = false := by decide
example : trimSpace "  a b\t" = "a b" := by decide
example : splitSlash "r/pics/s/abc" = ["r", "pics", "s", "abc"] := by decide
example : trimSlashes "/r/pics/s/abc" = "r/pics/s/abc" := by decide

/-! ## Reddit client (embedding of the client source file, first revision)

The sentinel errors `ErrInvalidURL`, `ErrPostNotFound`, `ErrNoImages`; the
`Gallery` and `redditPost` shapes; `extractImages`; `isShareLink`;
`resolveShareLink`; `resolveURL`; and the post-decode tail of
`FetchGallery`.  The Go `map[string]...` of `MediaMetadata` is modelled as
an association list with unique keys looked up with `List.lookup`. -/

inductive RedditError where
  | invalidURL
  | postNotFound
  | noImages
deriving DecidableEq, Repr

deriving instance DecidableEq for Except

structure Gallery where
  title : String
  images : List String
  url : String
deriving DecidableEq, Repr

/-- One entry of `GalleryData.Items`. -/
structure GalleryItem where
  mediaID : String
deriving DecidableEq, Repr

/-- The `s` object of one `media_metadata` entry: static (`U`) and
animated (`Gif`) source URLs, with `""` for an absent field as in Go's
zero value. -/
structure MediaSource where
  u : String
  gif : String
deriving DecidableEq, Repr

/-- One entry of `Preview.Images`: the animated variant's source URL when
`Variants.Gif` is non-nil. -/
structure PreviewImage where
  gifSourceURL : Option String
deriving DecidableEq, Repr

/-- The `redditPost` JSON shape.  `galleryData`/`preview` are `Option`s
mirroring the nilable Go pointers; a nil `MediaMetadata` map is the empty
association list. -/
structure RedditPost where
  title : String
  isGallery : Bool
  url : String
  galleryData : Option (List GalleryItem)
  mediaMetadata : List (String × MediaSource)
  preview : Option (List PreviewImage)
deriving DecidableEq, Repr

/-- Model of `html.UnescapeString` restricted to the named entities that
occur in reddit media URLs (the upstream JSON double-encodes query
separators as `&amp;`); all other text is copied verbatim. -/
def unescapeChars : List Char → List Char
  | '&' :: 'a' :: 'm' :: 'p' :: ';' :: rest => '&' :: unescapeChars rest
  | '&' :: 'l' :: 't' :: ';' :: rest => '<' :: unescapeChars rest
  | '&' :: 'g' :: 't' :: ';' :: rest => '>' :: unescapeChars rest
  | '&' :: 'q' :: 'u' :: 'o' :: 't' :: ';' :: rest => '"' :: unescapeChars rest
  | c :: rest => c :: unescapeChars rest
  | [] => []

/-- String wrapper around `unescapeChars`. -/
def unescapeString (s : String) : String :=
  String.mk (unescapeChars s.data)

/-- Tier 1 of `extractImages`: the gallery branch.  For each item, in
order, look up its media-ID; take the animated `Gif` source, falling back
to the static `U` source when the former is empty; skip the item when the
lookup fails or both are empty; unescape what is emitted.  The
accumulate-with-`append` loop of the source is written as `filterMap`. -/
def galleryTier (post : RedditPost) : List String :=
  if post.isGallery then
    match post.galleryData with
    | some items =>
      items.filterMap fun item =>
        match post.mediaMetadata.lookup item.mediaID with
        | some media =>
          let raw := if media.gif = "" then media.u else media.gif
          if raw = "" then none else some (unescapeString raw)
        | none => none
    | none => []
  else []

/-- Tier 2 of `extractImages`: each preview image whose `Variants.Gif` is
present contributes its unescaped source URL.  (The source guards the loop
with `post.Preview != nil`; an absent preview contributes nothing either
way.) -/
def previewTier (post : RedditPost) : List String :=
  match post.preview with
  | some imgs => imgs.filterMap fun img => img.gifSourceURL.map unescapeString
  | none => []

/-- Tier 3 of `extractImages`: the single direct URL, when non-empty. -/
def directTier (post : RedditPost) : List String :=
  if post.url = "" then [] else [unescapeString post.url]

/-- `extractImages`: first non-empty tier wins.  Each `if images = []`
reproduces the source's `if len(images) == 0` guard; the source's extra
nil/emptiness guards are absorbed by the tiers returning `[]` in exactly
those cases. -/
def extractImages (post : RedditPost) : List String :=
  let images := galleryTier post
  let images := if images = [] then previewTier post else images
  let images := if images = [] then directTier post else images
  images

/-- `isShareLink`: the path splits (after trimming slashes) into exactly
four parts `r/<sub>/s/<id>` with a non-empty id. -/
def isShareLink (path : String) : Bool :=
  match splitSlash (trimSlashes path) with
  | [a, _, c, d] => a = "r" && c = "s" && d ≠ ""
  | _ => false

/-- `resolveShareLink`, as a function of the `Location` header of the
non-redirect-following GET's response (`""` when the header is absent, as
returned by `Header.Get`).  Transport failures of that request are outside
the model. -/
def resolveShareLink (loc : String) : Except RedditError GoURL :=
  if loc = "" then .error .invalidURL
  else
    match parseGoURL loc with
    | none => .error .invalidURL
    | some u =>
      if containsSubstr u.host "reddit.com" then .ok u
      else .error .invalidURL

/-- The scheme-defaulting prefix step of `resolveURL`: after trimming, a
string not starting with the literal `"http"` gets `https://` prepended. -/
def ensureScheme (s : String) : String :=
  if startsWithStr s "http" then s else "https://" ++ s

/-- `resolveURL`, with the share-link network exchange abstracted into the
`loc` oracle (the `Location` header `resolveShareLink` would observe).
Validates host, resolves share links, and canonicalizes to
`https://www.reddit.com<path>`, discarding query and fragment. -/
def resolveURL (loc : String) (inputURL : String) : Except RedditError String :=
  let inputURL := ensureScheme (trimSpace inputURL)
  match parseGoURL inputURL with
  | none => .error .invalidURL
  | some u =>
    if u.host = "" || !containsSubstr u.host "reddit.com" then .error .invalidURL
    else if isShareLink u.path then
      match resolveShareLink loc with
      | .error e => .error e
      | .ok u2 => .ok ("https://www.reddit.com" ++ u2.path)
    else .ok ("https://www.reddit.com" ++ u.path)

/-- One element of the decoded top-level JSON array: its `data.children`,
each child carrying a post. -/
structure RedditListing where
  children : List RedditPost
deriving DecidableEq, Repr

/-- The tail of `FetchGallery` after the upstream JSON has been fetched
and decoded (the URL resolution, HTTP status and JSON-decode failures
happen before this point): empty listing/children fail with
`PostNotFound`, empty extraction fails with `NoImages`, and otherwise the
`Gallery` carries the verbatim title, the extracted images and the
caller's original `postURL`. -/
def fetchGalleryFromData (postURL : String) (data : List RedditListing) :
    Except RedditError Gallery :=
  match data with
  | [] => .error .postNotFound
  | listing :: _ =>
    match listing.children with
    | [] => .error .postNotFound
    | post :: _ =>
      if extractImages post = [] then .error .noImages
      else .ok ⟨post.title, extractImages post, postURL⟩

example : unescapeString "a?x=1&amp;y=2" = "a?x=1&y=2" := by decide
example : isShareLink "/r/pics/s/abc" = true := by decide
example : isShareLink "/r/pics/comments/abc" = false := by decide
example : isShareLink "/r/pics/s/" = false := by decide
example : resolveURL "" "  www.reddit.com/r/pics/comments/x/t/?q=1#f  " =
    .ok "https://www.reddit.com/r/pics/comments/x/t/" := by decide

/-! ## Asset streamer (embedding of the image utilities source file)

`isOriginalFormat`, `resolvedExt`, `streamImage` and `detectExtension`.
Image bytes are `List Nat`; the Go `image` package's decoder and encoders
are oracle parameters over an abstract in-memory image type `Img`
(decoding/encoding binary image formats is outside the embedding). -/

/-- `isOriginalFormat`: the requested format means "keep as-is". -/
def isOriginalFormat (format : String) : Bool :=
  format = "" || format = "original"

/-- `resolvedExt`: the extension used by the caller — the original one for
the passthrough formats, `.jpg` for `jpeg`, else `.` plus the format. -/
def resolvedExt (originalExt format : String) : String :=
  if isOriginalFormat format then originalExt
  else if format = "jpeg" then ".jpg"
  else "." ++ format

inductive StreamError where
  | decodeError
  | unsupportedFormat
deriving DecidableEq, Repr

/-- `streamImage src format dst`, returning the bytes written to `dst`.
The passthrough branch is `io.Copy`; otherwise the full input is decoded
(`decode` returns `none` on undecodable bytes) and re-encoded by the
encoder selected by the format switch.  Encoder failures (possible in Go
only through sink write errors) are outside the model. -/
def streamImage {Img : Type} (decode : List Nat → Option Img)
    (encodeJpeg encodePng encodeGif : Img → List Nat)
    (src : List Nat) (format : String) : Except StreamError (List Nat) :=
  if isOriginalFormat format then .ok src
  else
    match decode src with
    | none => .error .decodeError
    | some img =>
      if format = "jpg" || format = "jpeg" then .ok (encodeJpeg img)
      else if format = "png" then .ok (encodePng img)
      else if format = "gif" then .ok (encodeGif img)
      else .error .unsupportedFormat

/-- The extension allowlist of `detectExtension`'s URL-path switch. -/
def knownImageExts : List String :=
  [".png", ".gif", ".jpg", ".jpeg", ".webp"]

/-- Model of `path.Ext`: the suffix starting at the final dot of the last
slash-separated element, or `""` when that element has no dot. -/
def pathExt (p : String) : String :=
  let lastSeg := (p.data.reverse.takeWhile (fun c => c ≠ '/')).reverse
  if lastSeg.contains '.' then
    String.mk ('.' :: (lastSeg.reverse.takeWhile (fun c => c ≠ '.')).reverse)
  else ""

/-- Model of `mime.ExtensionsByType` on Go's builtin type table restricted
to the image types (system mime registries may extend the table; the
builtin table is the portable baseline).  The media type is the lowercased
part before any `;` parameters, surrounding spaces trimmed, and the
extension lists are sorted as Go returns them. -/
def extensionsByType (contentType : String) : List String :=
  let mt := toLowerStr (trimSpace (String.mk (cutAtChar ';' contentType.data).1))
  if mt = "image/avif" then [".avif"]
  else if mt = "image/gif" then [".gif"]
  else if mt = "image/jpeg" then [".jpeg", ".jpg"]
  else if mt = "image/png" then [".png"]
  else if mt = "image/svg+xml" then [".svg"]
  else if mt = "image/webp" then [".webp"]
  else []

/-- `detectExtension`: prefer the (lowercased) extension of the parsed
URL's path when it is in the known-image set; else the first extension Go
maps the non-empty content type to; else `.jpg`. -/
def detectExtension (urlStr contentType : String) : String :=
  let fromURL : Option String :=
    match parseGoURL urlStr with
    | some u =>
      let ext := toLowerStr (pathExt u.path)
      if knownImageExts.contains ext then some ext else none
    | none => none
  match fromURL with
  | some ext => ext
  | none =>
    if contentType ≠ "" then
      match extensionsByType contentType with
      | e :: _ => e
      | [] => ".jpg"
    else ".jpg"

example : pathExt "/a/b/c.PNG" = ".PNG" := by decide
example : pathExt "/a/b.x/c" = "" := by decide
example : detectExtension "https://i.redd.it/x.png" "image/gif" = ".png" := by decide
example : detectExtension "https://i.redd.it/x" "image/jpeg" = ".jpeg" := by decide
example : detectExtension "https://i.redd.it/x" "" = ".jpg" := by decide

/-! ## Archive assembler (embedding of `handleDownloadZip`, first revision)

The multi-URL branch of `handleDownloadZip`: `Content-Disposition` names
the archive `<cleanFilename(page_title)>.zip`; the serial loop polls the
request context before each item, fetches via `StreamImage`, creates the
entry `image_%03d<resolvedExt>` from the 1-based loop index, and streams
into it.  Network and cancellation are oracles: `fetch i u` is the result
of `StreamImage` for the `i`-th URL `u` (`none` = fetch error, otherwise
body bytes and detected extension), and `cancel i` is whether
`r.Context().Err()` is non-nil when iteration `i` polls it.  `z.Create`
failures (sink write errors) are outside the model.  The deferred
`z.Close()` runs on every exit path, so the result is always finalized. -/

/-- Go letter class of `unicode.IsLetter`, modelled on the ASCII range
(Go additionally classifies non-ASCII Unicode letters; the titles in the
claims are ASCII). -/
def isGoLetter (c : Char) : Bool := c.isAlpha

/-- Go digit class of `unicode.IsDigit`, modelled on the ASCII range. -/
def isGoDigit (c : Char) : Bool := c.isDigit

/-- The rune mapping of `cleanFilename`'s `strings.Map` callback: keep
letters and digits, turn whitespace into `_`, and drop (`-1`, here
`none`) everything else. -/
def cleanRune (c : Char) : Option Char :=
  if isGoLetter c || isGoDigit c then some c
  else if isGoSpace c then some '_'
  else none

/-- Model of `strings.Map` where a `none` result drops the rune. -/
def goStringMap (f : Char → Option Char) : List Char → List Char
  | [] => []
  | c :: cs =>
    match f c with
    | some d => d :: goStringMap f cs
    | none => goStringMap f cs

/-- `cleanFilename`: the fixed placeholder for the empty title, otherwise
the `strings.Map` sanitization. -/
def cleanFilename (s : String) : String :=
  if s = "" then "reddit_gallery"
  else String.mk (goStringMap cleanRune s.data)

/-- The archive download's filename: `fmt.Sprintf("%s.zip", title)` with
`title := cleanFilename(page_title)`. -/
def zipAttachmentFilename (pageTitle : String) : String :=
  cleanFilename pageTitle ++ ".zip"

/-- The decimal digit character for `d < 10`. -/
def digitChar : Nat → Char
  | 0 => '0' | 1 => '1' | 2 => '2' | 3 => '3' | 4 => '4'
  | 5 => '5' | 6 => '6' | 7 => '7' | 8 => '8' | 9 => '9'
  | _ => '*'

/-- Decimal digits of `n`, most significant first (fuel-based so the
kernel can evaluate it; `fuel ≥ n + 1` always suffices). -/
def natDigitsAux : Nat → Nat → List Char
  | 0, _ => []
  | fuel + 1, n =>
    if n < 10 then [digitChar n]
    else natDigitsAux fuel (n / 10) ++ [digitChar (n % 10)]

/-- Decimal representation of `n`. -/
def natDigits (n : Nat) : List Char :=
  natDigitsAux (n + 1) n

/-- Model of `fmt.Sprintf("%03d", n)`: decimal, zero-padded to width 3. -/
def fmt03 (n : Nat) : String :=
  let ds := natDigits n
  if ds.length < 3 then String.mk (List.replicate (3 - ds.length) '0' ++ ds)
  else String.mk ds

/-- The archive entry name `image_%03d<ext>` for 1-based index `n`. -/
def zipEntryName (n : Nat) (ext : String) : String :=
  "image_" ++ fmt03 n ++ ext

structure ZipEntry where
  name : String
  content : List Nat
deriving DecidableEq, Repr

/-- The loop of `handleDownloadZip` from absolute index `i`, returning the
entries written and the number of `StreamImage` calls performed.  A fetch
error skips the item; a conversion error leaves the created entry with
nothing written (decoding consumes the whole input before any output), as
in the source where the error is logged and the loop continues. -/
def zipLoop {Img : Type} (decode : List Nat → Option Img)
    (encodeJpeg encodePng encodeGif : Img → List Nat)
    (fetch : Nat → String → Option (List Nat × String))
    (cancel : Nat → Bool) (format : String) :
    Nat → List String → List ZipEntry × Nat
  | _, [] => ([], 0)
  | i, u :: rest =>
    if cancel i then ([], 0)
    else
      match fetch i u with
      | none =>
        let (es, n) := zipLoop decode encodeJpeg encodePng encodeGif fetch cancel format (i + 1) rest
        (es, n + 1)
      | some (bytes, ext) =>
        let name := zipEntryName (i + 1) (resolvedExt ext format)
        let written :=
          match streamImage decode encodeJpeg encodePng encodeGif bytes format with
          | .ok out => out
          | .error _ => []
        let (es, n) := zipLoop decode encodeJpeg encodePng encodeGif fetch cancel format (i + 1) rest
        (⟨name, written⟩ :: es, n + 1)

structure ZipResult where
  entries : List ZipEntry
  fetchCount : Nat
  finalized : Bool
deriving DecidableEq, Repr

/-- The whole multi-URL archive branch: run the loop from index 0; the
deferred `z.Close()` finalizes the archive on both normal exhaustion and
the early cancellation `return`. -/
def handleDownloadZipArchive {Img : Type} (decode : List Nat → Option Img)
    (encodeJpeg encodePng encodeGif : Img → List Nat)
    (fetch : Nat → String → Option (List Nat × String))
    (cancel : Nat → Bool) (format : String) (urls : List String) : ZipResult :=
  let (es, n) := zipLoop decode encodeJpeg encodePng encodeGif fetch cancel format 0 urls
  ⟨es, n, true⟩

example : fmt03 3 = "003" := by decide
example : fmt03 42 = "042" := by decide
example : fmt03 1234 = "1234" := by decide
example : zipEntryName 3 ".jpg" = "image_003.jpg" := by decide
example : cleanFilename "" = "reddit_gallery" := by decide
example : cleanFilename "My Gallery! 2024" = "My_Gallery_2024" := by decide
example : cleanFilename "!!!" = "" := by decide

/-! ## Claim-shaped specification functions and theorems -/

/-- The gallery-extraction rule as the spec words it: look up each item's
media-ID in the metadata mapping in item order, emit the animated source
when present and non-empty, else the static source, skip items with
neither (or with no metadata entry), entity-unescaping every emitted
URL. -/
def specGalleryExtraction (meta : List (String × MediaSource))
    (items : List GalleryItem) : List String :=
  items.filterMap fun item =>
    match meta.lookup item.mediaID with
    | none => none
    | some m =>
      if m.gif ≠ "" then some (unescapeString m.gif)
      else if m.u ≠ "" then some (unescapeString m.u)
      else none

lemma galleryItem_code_eq_spec (meta : List (String × MediaSource)) (item : GalleryItem) :
    (match meta.lookup item.mediaID with
     | some media =>
       if (if media.gif = "" then media.u else media.gif) = "" then none
       else some (unescapeString (if media.gif = "" then media.u else media.gif))
     | none => none)
    = (match meta.lookup item.mediaID with
       | none => none
       | some m =>
         if m.gif ≠ "" then some (unescapeString m.gif)
         else if m.u ≠ "" then some (unescapeString m.u)
         else none) := by
  cases hl : meta.lookup item.mediaID with
  | none => rfl
  | some m =>
    by_cases hg : m.gif = ""
    · by_cases hu : m.u = "" <;> simp [hg, hu]
    · simp [hg]

lemma galleryTier_eq_spec (post : RedditPost) (items : List GalleryItem)
    (h1 : post.isGallery = true) (h2 : post.galleryData = some items) :
    galleryTier post = specGalleryExtraction post.mediaMetadata items := by
  unfold galleryTier specGalleryExtraction
  rw [h1, h2]
  simp only [if_true]
  congr 1
  funext item
  exact galleryItem_code_eq_spec post.mediaMetadata item

lemma extractImages_of_galleryTier_ne (post : RedditPost)
    (h : galleryTier post ≠ []) : extractImages post = galleryTier post := by
  simp [extractImages, h]

/-- Claim C1: for a gallery post with gallery items present, extraction
performs the per-item metadata lookup in item order, prefers the non-empty
animated source over the static one, skips items with no usable source or
no metadata entry, and entity-unescapes every emitted URL; when that
lookup yields anything, it is exactly the extraction result. -/
theorem claim_C1_gallery_extraction (post : RedditPost) (items : List GalleryItem)
    (h1 : post.isGallery = true) (h2 : post.galleryData = some items)
    (_hne : items ≠ []) :
    galleryTier post = specGalleryExtraction post.mediaMetadata items
    ∧ (specGalleryExtraction post.mediaMetadata items ≠ [] →
        extractImages post = specGalleryExtraction post.mediaMetadata items) := by
  have hg := galleryTier_eq_spec post items h1 h2
  refine ⟨hg, fun hne => ?_⟩
  rw [extractImages_of_galleryTier_ne post (by rw [hg]; exact hne), hg]

/-- A two-item gallery post: the first item's metadata has an animated
source, the second only a static one; both sources carry a double-encoded
query separator. -/
def twoItemGalleryPost : RedditPost :=
  { title := "t"
    isGallery := true
    url := ""
    galleryData := some [⟨"m1"⟩, ⟨"m2"⟩]
    mediaMetadata :=
      [("m1", ⟨"https://i.example/a.jpg", "https://g.example/a.gif?x=1&amp;y=2"⟩),
       ("m2", ⟨"https://i.example/b.jpg?a=1&amp;b=2", ""⟩)]
    preview := none }

/-- Witness for claim C1: on the two-item gallery post, extraction returns
exactly the two URLs in item order, entity-unescaped, the animated one
preferred for the first item. -/
theorem claim_C1_gallery_extraction_witness :
    extractImages twoItemGalleryPost =
      ["https://g.example/a.gif?x=1&y=2", "https://i.example/b.jpg?a=1&b=2"] := by
  have h := claim_C1_gallery_extraction twoItemGalleryPost [⟨"m1"⟩, ⟨"m2"⟩]
    rfl rfl (by decide)
  rw [h.2 (by decide)]
  decide

lemma extractImages_eq_nil_iff (post : RedditPost) :
    extractImages post = [] ↔
      galleryTier post = [] ∧ previewTier post = [] ∧ directTier post = [] := by
  unfold extractImages
  by_cases h1 : galleryTier post = [] <;>
    by_cases h2 : previewTier post = [] <;>
      simp [h1, h2]

lemma fetch_eq_noImages_iff (postURL : String) (data : List RedditListing) :
    fetchGalleryFromData postURL data = .error .noImages ↔
      ∃ listing lrest post prest,
        data = listing :: lrest ∧ listing.children = post :: prest ∧
        extractImages post = [] := by
  cases data with
  | nil =>
    constructor
    · intro h; exact absurd h (by simp [fetchGalleryFromData])
    · rintro ⟨l, lr, p, pr, hd, -⟩; exact List.noConfusion hd
  | cons listing lrest =>
    cases hc : listing.children with
    | nil =>
      constructor
      · intro h
        simp only [fetchGalleryFromData, hc] at h
        exact absurd h (by simp)
      · rintro ⟨l, lr, p, pr, hd, hcc, -⟩
        injection hd with h1 h2
        subst h1; subst h2
        rw [hc] at hcc
        exact List.noConfusion hcc
    | cons post prest =>
      constructor
      · intro h
        refine ⟨listing, lrest, post, prest, rfl, hc, ?_⟩
        by_contra hi
        simp only [fetchGalleryFromData, hc, if_neg hi] at h
        exact absurd h (by simp)
      · rintro ⟨l, lr, p, pr, hd, hcc, hx⟩
        injection hd with h1 h2
        subst h1; subst h2
        rw [hc] at hcc
        injection hcc with h3 h4
        subst h3; subst h4
        simp only [fetchGalleryFromData, hc, if_pos hx]

lemma fetch_ok_images_ne (postURL : String) (data : List RedditListing)
    (g : Gallery) (hg : fetchGalleryFromData postURL data = .ok g) :
    g.images ≠ [] := by
  cases data with
  | nil => exact absurd hg (by simp [fetchGalleryFromData])
  | cons listing lrest =>
    cases hc : listing.children with
    | nil =>
      simp only [fetchGalleryFromData, hc] at hg
      exact absurd hg (by simp)
    | cons post prest =>
      simp only [fetchGalleryFromData, hc] at hg
      by_cases hi : extractImages post = []
      · rw [if_pos hi] at hg; exact absurd hg (by simp)
      · rw [if_neg hi] at hg
        injection hg with h
        rw [← h]
        simpa using hi

/-- Claim C7: the post-decode stage of gallery fetching fails with
`NoImages` exactly when a post is present and all three extraction tiers
are empty, and every successfully returned `Gallery` has a non-empty image
list. -/
theorem claim_C7_noImages_iff (postURL : String) (data : List RedditListing) :
    (fetchGalleryFromData postURL data = .error .noImages ↔
      ∃ listing lrest post prest,
        data = listing :: lrest ∧ listing.children = post :: prest ∧
        galleryTier post = [] ∧ previewTier post = [] ∧ directTier post = [])
    ∧ (∀ g, fetchGalleryFromData postURL data = .ok g → g.images ≠ []) := by
  constructor
  · rw [fetch_eq_noImages_iff]
    exact exists_congr fun l => exists_congr fun lr => exists_congr fun p =>
      exists_congr fun pr => and_congr_right fun _ => and_congr_right fun _ =>
        extractImages_eq_nil_iff p
  · intro g hg
    exact fetch_ok_images_ne postURL data g hg

/-- A post with all three tiers empty. -/
def noTierPost : RedditPost :=
  { title := "t", isGallery := true, url := "", galleryData := some [⟨"m"⟩],
    mediaMetadata := [], preview := some [⟨none⟩] }

/-- A post whose only source is its direct URL. -/
def directOnlyPost : RedditPost :=
  { title := "t", isGallery := false, url := "https://i.example/c.png",
    galleryData := none, mediaMetadata := [], preview := none }

/-- Witness for claim C7: a present post with all tiers empty fails with
`NoImages`, and a successful fetch yields a non-empty image list. -/
theorem claim_C7_noImages_iff_witness :
    fetchGalleryFromData "https://in" [⟨[noTierPost]⟩] = .error .noImages
    ∧ (Gallery.mk "t" ["https://i.example/c.png"] "https://in").images ≠ [] := by
  constructor
  · exact (claim_C7_noImages_iff "https://in" [⟨[noTierPost]⟩]).1.mpr
      ⟨⟨[noTierPost]⟩, [], noTierPost, [], rfl, rfl, by decide, by decide, by decide⟩
  · exact (claim_C7_noImages_iff "https://in" [⟨[directOnlyPost]⟩]).2
      ⟨"t", ["https://i.example/c.png"], "https://in"⟩ (by decide)

/-- The sanitization rule as claim C4 words it: replace every
non-alphanumeric character — whitespace included — with an underscore,
with the fixed placeholder for the empty input. -/
def claimCleanFilename (s : String) : String :=
  if s = "" then "reddit_gallery"
  else String.mk (s.data.map fun c => if isGoLetter c || isGoDigit c then c else '_')

lemma isGoSpace_eq_false_of_alnum {c : Char}
    (h : (isGoLetter c || isGoDigit c) = true) : isGoSpace c = false := by
  by_contra hs
  have hs' : isGoSpace c = true := by
    cases hval : isGoSpace c
    · exact absurd hval hs
    · rfl
  have hd : ((((c = ' ' ∨ c = '\t') ∨ c = '\n') ∨ c = '\x0d') ∨ c = '\x0b') ∨
      c = '\x0c' := by
    simpa [isGoSpace, Bool.or_eq_true, decide_eq_true_eq] using hs'
  rcases hd with ((((rfl | rfl) | rfl) | rfl) | rfl) | rfl <;>
    exact absurd h (by decide)

/-- Counterexample to claim C4 as stated: the sanitizer deletes `!`
rather than replacing it with an underscore, so the claim's own rule would
turn the claim's own example title into `My_Gallery__2024` while the code
produces `My_Gallery_2024`. -/
theorem claim_C4_counterexample :
    cleanFilename "My Gallery! 2024" = "My_Gallery_2024"
    ∧ claimCleanFilename "My Gallery! 2024" = "My_Gallery__2024"
    ∧ cleanFilename "My Gallery! 2024" ≠ claimCleanFilename "My Gallery! 2024" := by
  refine ⟨by decide, by decide, ?_⟩
  decide

/-- Claim C4 (amended): the sanitizer keeps exactly the alphanumeric and
whitespace characters — every other character is deleted, not replaced —
maps the kept whitespace to underscores, and returns the fixed placeholder
exactly for the empty input. -/
theorem claim_C4_sanitizer (s : String) (hne : s ≠ "") :
    cleanFilename s =
      String.mk ((s.data.filter fun c => isGoLetter c || isGoDigit c || isGoSpace c).map
        fun c => if isGoSpace c then '_' else c)
    ∧ cleanFilename "" = "reddit_gallery" := by
  refine ⟨?_, rfl⟩
  rw [cleanFilename, if_neg hne]
  congr 1
  induction s.data with
  | nil => rfl
  | cons c cs ih =>
    cases hL : isGoLetter c
    · cases hD : isGoDigit c
      · cases hS : isGoSpace c
        · simp [goStringMap, cleanRune, hL, hD, hS, ih]
        · simp [goStringMap, cleanRune, hL, hD, hS, ih]
      · have hS : isGoSpace c = false := isGoSpace_eq_false_of_alnum (by simp [hL, hD])
        simp [goStringMap, cleanRune, hL, hD, hS, ih]
    · have hS : isGoSpace c = false := isGoSpace_eq_false_of_alnum (by simp [hL])
      simp [goStringMap, cleanRune, hL, hS, ih]

/-- Witness for claim C4 (amended): the claim's example title, computed
through the amended characterization. -/
theorem claim_C4_sanitizer_witness :
    cleanFilename "My Gallery! 2024" = "My_Gallery_2024" := by
  have h := (claim_C4_sanitizer "My Gallery! 2024" (by decide)).1
  rw [h]; decide

/-- Claim C10: a non-empty title with no letters, digits or whitespace
sanitizes to the empty string — the placeholder is substituted only for
the exactly-empty input — so the archive download is named `.zip`. -/
theorem claim_C10_empty_clean (s : String) (hne : s ≠ "")
    (h : ∀ c ∈ s.data, isGoLetter c = false ∧ isGoDigit c = false ∧ isGoSpace c = false) :
    cleanFilename s = "" ∧ zipAttachmentFilename s = ".zip" := by
  have hnil : ∀ l : List Char,
      (∀ c ∈ l, isGoLetter c = false ∧ isGoDigit c = false ∧ isGoSpace c = false) →
      goStringMap cleanRune l = [] := by
    intro l hl
    induction l with
    | nil => rfl
    | cons c cs ih =>
      obtain ⟨h1, h2, h3⟩ := hl c (List.mem_cons_self c cs)
      have hnone : cleanRune c = none := by
        simp [cleanRune, h1, h2, h3]
      simp only [goStringMap, hnone]
      exact ih fun d hd => hl d (List.mem_cons_of_mem c hd)
  have hmap : goStringMap cleanRune s.data = [] := hnil s.data h
  have hclean : cleanFilename s = "" := by
    rw [cleanFilename, if_neg hne, hmap]
  exact ⟨hclean, by rw [zipAttachmentFilename, hclean]; rfl⟩

/-- Witness for claim C10: the title `"!!!"` yields the empty base name
and the archive filename `.zip`. -/
theorem claim_C10_empty_clean_witness :
    cleanFilename "!!!" = "" ∧ zipAttachmentFilename "!!!" = ".zip" :=
  claim_C10_empty_clean "!!!" (by decide) (by decide)

/-- Claim C5: extension detection prefers a known image extension found in
the parsed URL's path (lowercased) over any content type; otherwise it
takes the first extension the content type maps to; and it defaults to
`.jpg` when both are inconclusive. -/
theorem claim_C5_extension_policy :
    (∀ urlStr contentType u, parseGoURL urlStr = some u →
      knownImageExts.contains (toLowerStr (pathExt u.path)) = true →
      detectExtension urlStr contentType = toLowerStr (pathExt u.path))
    ∧ (∀ urlStr contentType u e rest, parseGoURL urlStr = some u →
      knownImageExts.contains (toLowerStr (pathExt u.path)) = false →
      extensionsByType contentType = e :: rest → contentType ≠ "" →
      detectExtension urlStr contentType = e)
    ∧ (∀ urlStr contentType u, parseGoURL urlStr = some u →
      knownImageExts.contains (toLowerStr (pathExt u.path)) = false →
      extensionsByType contentType = [] →
      detectExtension urlStr contentType = ".jpg") := by
  refine ⟨?_, ?_, ?_⟩
  · intro urlStr contentType u hu hk
    have hk' : toLowerStr (pathExt u.path) ∈ knownImageExts := by simpa using hk
    simp [detectExtension, hu, hk']
  · intro urlStr contentType u e rest hu hk he hct
    have hk' : toLowerStr (pathExt u.path) ∉ knownImageExts := by simpa using hk
    simp [detectExtension, hu, hk', he, hct]
  · intro urlStr contentType u hu hk he
    have hk' : toLowerStr (pathExt u.path) ∉ knownImageExts := by simpa using hk
    by_cases hct : contentType = ""
    · simp [detectExtension, hu, hk', hct]
    · simp [detectExtension, hu, hk', he, hct]

/-- Witness for claim C5: a URL ending in `.png` wins over a misleading
`image/gif` content type, and an extension-less URL with `image/jpeg`
yields the jpeg extension; an extension-less URL with an unknown content
type defaults to `.jpg`. -/
theorem claim_C5_extension_policy_witness :
    detectExtension "https://i.redd.it/x.png" "image/gif" = ".png"
    ∧ detectExtension "https://i.redd.it/x" "image/jpeg" = ".jpeg"
    ∧ detectExtension "https://i.redd.it/x" "text/weird" = ".jpg" := by
  refine ⟨?_, ?_, ?_⟩
  · exact claim_C5_extension_policy.1 "https://i.redd.it/x.png" "image/gif"
      ⟨"https", "i.redd.it", "/x.png", "", ""⟩ (by decide) (by decide)
  · exact claim_C5_extension_policy.2.1 "https://i.redd.it/x" "image/jpeg"
      ⟨"https", "i.redd.it", "/x", "", ""⟩ ".jpeg" [".jpg"]
      (by decide) (by decide) (by decide) (by decide)
  · exact claim_C5_extension_policy.2.2 "https://i.redd.it/x" "text/weird"
      ⟨"https", "i.redd.it", "/x", "", ""⟩ (by decide) (by decide) (by decide)

/-- Claim C8: with the passthrough target format (`"original"` or the
empty/unspecified one), streaming writes the source bytes unchanged,
for every input and independently of the decoder and the encoders. -/
theorem claim_C8_original_passthrough {Img : Type} (decode : List Nat → Option Img)
    (encodeJpeg encodePng encodeGif : Img → List Nat)
    (src : List Nat) (format : String)
    (h : isOriginalFormat format = true) :
    streamImage decode encodeJpeg encodePng encodeGif src format = .ok src := by
  simp [streamImage, h]

/-- Witness for claim C8: passthrough of a concrete byte sequence under
the `"original"` format, with a decoder that would reject the bytes. -/
theorem claim_C8_original_passthrough_witness :
    @streamImage Unit (fun _ => none) (fun _ => []) (fun _ => [])
      (fun _ => []) [137, 80, 78, 71] "original" = .ok [137, 80, 78, 71] :=
  claim_C8_original_passthrough (fun _ => none) (fun _ => []) (fun _ => [])
    (fun _ => []) [137, 80, 78, 71] "original" (by decide)

/-- Fetch oracle for the C2 counterexample: over three URLs, the first and
third fetches succeed, the second fails. -/
def c2Fetch : Nat → String → Option (List Nat × String)
  | 0, _ => some ([1], ".jpg")
  | 2, _ => some ([3], ".png")
  | _, _ => none

/-- Counterexample to claim C2 as stated: with the 2nd of 3 fetches
failing, the two entries are named `image_001.jpg` and `image_003.png` —
numbering preserves the failed item's original list position instead of
renumbering the successful emissions as 1 and 2. -/
theorem claim_C2_counterexample :
    (@handleDownloadZipArchive Unit (fun _ => none) (fun _ => [])
        (fun _ => []) (fun _ => []) c2Fetch (fun _ => false) ""
        ["u1", "u2", "u3"]).entries.map ZipEntry.name
      = ["image_001.jpg", "image_003.png"]
    ∧ ["image_001.jpg", "image_003.png"] ≠ ["image_001.jpg", "image_002.png"] := by
  constructor
  · decide
  · decide

/-- Claim C2 (amended): over 3 asset URLs with the 2nd fetch failing and
the others succeeding, archive assembly produces exactly 2 entries whose
3-digit zero-padded indices are the successful items' original 1-based
list positions, 1 and 3 — numbering is by list position, with a gap for
the failed item, not by successful emissions. -/
theorem claim_C2_entry_numbering {Img : Type} (decode : List Nat → Option Img)
    (encodeJpeg encodePng encodeGif : Img → List Nat)
    (fetch : Nat → String → Option (List Nat × String)) (format : String)
    (u0 u1 u2 : String) (b0 b2 : List Nat) (e0 e2 : String)
    (h0 : fetch 0 u0 = some (b0, e0))
    (h1 : fetch 1 u1 = none)
    (h2 : fetch 2 u2 = some (b2, e2)) :
    (handleDownloadZipArchive decode encodeJpeg encodePng encodeGif fetch
        (fun _ => false) format [u0, u1, u2]).entries.map ZipEntry.name
      = [zipEntryName 1 (resolvedExt e0 format),
         zipEntryName 3 (resolvedExt e2 format)] := by
  simp [handleDownloadZipArchive, zipLoop, h0, h1, h2]

/-- Witness for claim C2 (amended): concrete oracles over three URLs. -/
theorem claim_C2_entry_numbering_witness :
    (@handleDownloadZipArchive Unit (fun _ => none) (fun _ => [])
        (fun _ => []) (fun _ => []) c2Fetch (fun _ => false) ""
        ["u1", "u2", "u3"]).entries.map ZipEntry.name
      = [zipEntryName 1 (resolvedExt ".jpg" ""), zipEntryName 3 (resolvedExt ".png" "")] :=
  claim_C2_entry_numbering (fun _ => none) (fun _ => []) (fun _ => []) (fun _ => [])
    c2Fetch "" "u1" "u2" "u3" [1] [3] ".jpg" ".png" (by decide) (by decide) (by decide)

lemma zipLoop_cancel_at {Img : Type} (decode : List Nat → Option Img)
    (encodeJpeg encodePng encodeGif : Img → List Nat)
    (fetch : Nat → String → Option (List Nat × String))
    (cancel : Nat → Bool) (format : String) (k : Nat)
    (hc : ∀ j, cancel j = decide (k ≤ j)) :
    ∀ (urls : List String) (i : Nat),
      zipLoop decode encodeJpeg encodePng encodeGif fetch cancel format i urls
        = zipLoop decode encodeJpeg encodePng encodeGif fetch (fun _ => false)
            format i (urls.take (k - i)) := by
  intro urls
  induction urls with
  | nil => intro i; simp [zipLoop]
  | cons u rest ih =>
    intro i
    by_cases hki : k ≤ i
    · have h0 : k - i = 0 := Nat.sub_eq_zero_of_le hki
      rw [h0]
      simp only [List.take_zero, zipLoop]
      rw [hc i, decide_eq_true hki]
      simp
    · have hpos : 0 < k - i := Nat.sub_pos_of_lt (Nat.lt_of_not_le hki)
      obtain ⟨m, hm⟩ : ∃ m, k - i = m + 1 :=
        ⟨k - i - 1, by omega⟩
      have hm' : m = k - (i + 1) := by omega
      rw [hm]
      simp only [List.take_succ_cons, zipLoop]
      rw [hc i, decide_eq_false (by omega : ¬k ≤ i)]
      simp only [Bool.false_eq_true, if_false]
      rw [ih (i + 1), ← hm']

lemma zipLoop_fetchCount_le {Img : Type} (decode : List Nat → Option Img)
    (encodeJpeg encodePng encodeGif : Img → List Nat)
    (fetch : Nat → String → Option (List Nat × String))
    (cancel : Nat → Bool) (format : String) :
    ∀ (urls : List String) (i : Nat),
      (zipLoop decode encodeJpeg encodePng encodeGif fetch cancel format i urls).2
        ≤ urls.length := by
  intro urls
  induction urls with
  | nil => intro i; simp [zipLoop]
  | cons u rest ih =>
    intro i
    simp only [zipLoop, List.length_cons]
    by_cases hci : cancel i = true
    · rw [if_pos hci]; omega
    · rw [if_neg hci]
      cases hr : fetch i u with
      | none => have := ih (i + 1); simp only []; omega
      | some p => have := ih (i + 1); simp only []; omega

/-- Claim C9: with a cancellation signal first observed at iteration `k`,
the archive loop behaves exactly as the uncancelled loop over the first
`k` URLs — the entries are those already written, at most `k` fetches are
performed (none after the signal is observed), and the archive is still
finalized. -/
theorem claim_C9_cancellation {Img : Type} (decode : List Nat → Option Img)
    (encodeJpeg encodePng encodeGif : Img → List Nat)
    (fetch : Nat → String → Option (List Nat × String))
    (cancel : Nat → Bool) (format : String) (urls : List String) (k : Nat)
    (hc : ∀ j, cancel j = decide (k ≤ j)) :
    (handleDownloadZipArchive decode encodeJpeg encodePng encodeGif fetch cancel
        format urls).entries
      = (handleDownloadZipArchive decode encodeJpeg encodePng encodeGif fetch
          (fun _ => false) format (urls.take k)).entries
    ∧ (handleDownloadZipArchive decode encodeJpeg encodePng encodeGif fetch cancel
        format urls).fetchCount ≤ k
    ∧ (handleDownloadZipArchive decode encodeJpeg encodePng encodeGif fetch cancel
        format urls).finalized = true := by
  have hloop := zipLoop_cancel_at decode encodeJpeg encodePng encodeGif fetch
    cancel format k hc urls 0
  have htake : urls.take (k - 0) = urls.take k := by rw [Nat.sub_zero]
  rw [htake] at hloop
  refine ⟨?_, ?_, rfl⟩
  · simp only [handleDownloadZipArchive, hloop]
  · have hlen : (urls.take k).length ≤ k := by
      simp
    have hcnt := zipLoop_fetchCount_le decode encodeJpeg encodePng encodeGif fetch
      (fun _ => false) format (urls.take k) 0
    simp only [handleDownloadZipArchive, hloop]
    omega

/-- Fetch oracle for the C9 witness: every fetch succeeds with a
one-byte body and a `.jpg` extension. -/
def c9Fetch : Nat → String → Option (List Nat × String) :=
  fun _ _ => some ([7], ".jpg")

/-- Witness for claim C9: cancelling after 1 of 4 items yields a
finalized archive with exactly the single entry already written, and one
fetch performed. -/
theorem claim_C9_cancellation_witness :
    (@handleDownloadZipArchive Unit (fun _ => none) (fun _ => [])
        (fun _ => []) (fun _ => []) c9Fetch (fun j => decide (1 ≤ j)) ""
        ["a", "b", "c", "d"]).entries = [⟨"image_001.jpg", [7]⟩]
    ∧ (@handleDownloadZipArchive Unit (fun _ => none) (fun _ => [])
        (fun _ => []) (fun _ => []) c9Fetch (fun j => decide (1 ≤ j)) ""
        ["a", "b", "c", "d"]).finalized = true := by
  have h := @claim_C9_cancellation Unit (fun _ => none) (fun _ => [])
    (fun _ => []) (fun _ => []) c9Fetch (fun j => decide (1 ≤ j)) ""
    ["a", "b", "c", "d"] 1 (fun j => rfl)
  refine ⟨?_, h.2.2⟩
  rw [h.1]
  decide

lemma strAppend_data (s t : String) : (s ++ t).data = s.data ++ t.data := by
  obtain ⟨a⟩ := s
  obtain ⟨b⟩ := t
  rfl

lemma dropWhile_cons_false {p : Char → Bool} {c : Char} {cs : List Char}
    (h : p c = false) : (c :: cs).dropWhile p = c :: cs := by
  simp [List.dropWhile, h]

lemma dropWhile_head_false {p : Char → Bool} :
    ∀ (l : List Char) (c : Char) (cs : List Char),
      l.dropWhile p = c :: cs → p c = false := by
  intro l
  induction l with
  | nil => intro c cs h; exact absurd h (by simp)
  | cons a as ih =>
    intro c cs h
    by_cases hp : p a = true
    · rw [List.dropWhile_cons, if_pos hp] at h
      exact ih c cs h
    · rw [List.dropWhile_cons, if_neg hp] at h
      injection h with h1 _
      subst h1
      exact Bool.eq_false_iff.mpr hp

lemma dropWhile_idem {p : Char → Bool} (l : List Char) :
    (l.dropWhile p).dropWhile p = l.dropWhile p := by
  cases h : l.dropWhile p with
  | nil => simp
  | cons c cs => exact dropWhile_cons_false (dropWhile_head_false l c cs h)

lemma dropTrailing_idem (p : Char → Bool) (cs : List Char) :
    dropTrailing p (dropTrailing p cs) = dropTrailing p cs := by
  unfold dropTrailing
  rw [List.reverse_reverse, dropWhile_idem]

lemma dropTrailing_append_of_fixed (p : Char → Bool) (l r : List Char)
    (hl : dropTrailing p l = l) (hr : dropTrailing p r = r) :
    dropTrailing p (l ++ r) = l ++ r := by
  cases hrev : r.reverse with
  | nil =>
    have hnil : r = [] := by
      have := congrArg List.reverse hrev
      simpa using this
    subst hnil
    simpa using hl
  | cons c cs =>
    have h1 : r.reverse.dropWhile p = r.reverse := by
      have h2 := congrArg List.reverse hr
      unfold dropTrailing at h2
      rw [List.reverse_reverse] at h2
      exact h2
    have hpc : p c = false := by
      rw [hrev] at h1
      exact dropWhile_head_false _ c cs h1
    unfold dropTrailing
    rw [List.reverse_append, hrev]
    simp only [List.cons_append]
    rw [dropWhile_cons_false hpc]
    rw [show (c :: (cs ++ l.reverse) : List Char) = (c :: cs) ++ l.reverse from rfl]
    rw [← hrev, ← List.reverse_append, List.reverse_reverse]

lemma trimSpace_fixed_dropTrailing (s : String) :
    dropTrailing isGoSpace (trimSpace s).data = (trimSpace s).data := by
  show dropTrailing isGoSpace (dropTrailing isGoSpace (s.data.dropWhile isGoSpace)) = _
  rw [dropTrailing_idem]
  rfl

lemma trimSpace_https_append (s : String) :
    trimSpace ("https://" ++ trimSpace s) = "https://" ++ trimSpace s := by
  have hdata : ("https://" ++ trimSpace s).data
      = "https://".data ++ (trimSpace s).data := strAppend_data _ _
  have h1 : ("https://".data ++ (trimSpace s).data).dropWhile isGoSpace
      = "https://".data ++ (trimSpace s).data := by
    rw [show "https://".data = 'h' :: "ttps://".data from rfl]
    simp only [List.cons_append]
    exact dropWhile_cons_false (by decide)
  have h2 : dropTrailing isGoSpace ("https://".data ++ (trimSpace s).data)
      = "https://".data ++ (trimSpace s).data :=
    dropTrailing_append_of_fixed _ _ _ (by decide) (trimSpace_fixed_dropTrailing s)
  calc trimSpace ("https://" ++ trimSpace s)
      = String.mk (dropTrailing isGoSpace
          ((("https://" ++ trimSpace s).data).dropWhile isGoSpace)) := rfl
    _ = String.mk (("https://" ++ trimSpace s).data) := by rw [hdata, h1, h2]
    _ = "https://" ++ trimSpace s := rfl

lemma startsWith_http_of_https_append (t : String) :
    startsWithStr ("https://" ++ t) "http" = true := by
  unfold startsWithStr
  rw [strAppend_data]
  rfl

/-- The "has a scheme prefix" predicate as the claim words it: the input
already starts with an `http://` or `https://` scheme. -/
def hasSchemePrefix (s : String) : Bool :=
  startsWithStr s "http://" || startsWithStr s "https://"

/-- Counterexample to claim C6 as stated: `http.reddit.com/r/pics/comments/abc`
has no scheme prefix, yet resolution rejects it while resolution of its
`https://`-prefixed form succeeds — the code tests for the literal prefix
`http`, not for a scheme, so this input is never given a scheme. -/
theorem claim_C6_counterexample :
    hasSchemePrefix "http.reddit.com/r/pics/comments/abc" = false
    ∧ resolveURL "" "http.reddit.com/r/pics/comments/abc" = .error .invalidURL
    ∧ resolveURL "" ("https://" ++ trimSpace "http.reddit.com/r/pics/comments/abc")
        = .ok "https://www.reddit.com/r/pics/comments/abc"
    ∧ resolveURL "" "http.reddit.com/r/pics/comments/abc"
        ≠ resolveURL "" ("https://" ++ trimSpace "http.reddit.com/r/pics/comments/abc") :=
  ⟨by decide, by decide, by decide, by decide⟩

/-- Claim C6 (amended): for every input whose trimmed form does not start
with the literal `http` — the code's actual scheme test — resolution
behaves identically to resolution of the trimmed input prefixed with
`https://`, for every share-link oracle. -/
theorem claim_C6_scheme_prepend (loc input : String)
    (h : startsWithStr (trimSpace input) "http" = false) :
    resolveURL loc input = resolveURL loc ("https://" ++ trimSpace input) := by
  have e1 : ensureScheme (trimSpace input) = "https://" ++ trimSpace input := by
    unfold ensureScheme
    rw [h]
    simp
  have e2 : ensureScheme (trimSpace ("https://" ++ trimSpace input))
      = "https://" ++ trimSpace input := by
    rw [trimSpace_https_append]
    unfold ensureScheme
    rw [startsWith_http_of_https_append]
    simp
  unfold resolveURL
  rw [e1, e2]

/-- Witness for claim C6 (amended): a bare host-and-path input resolves
exactly like its `https://`-prefixed form. -/
theorem claim_C6_scheme_prepend_witness :
    resolveURL "" " www.reddit.com/r/pics/comments/abc "
      = resolveURL "" ("https://" ++ trimSpace " www.reddit.com/r/pics/comments/abc ")
    ∧ resolveURL "" " www.reddit.com/r/pics/comments/abc "
      = .ok "https://www.reddit.com/r/pics/comments/abc" := by
  constructor
  · exact claim_C6_scheme_prepend "" " www.reddit.com/r/pics/comments/abc " (by decide)
  · decide

/-- Claim C3: for an input URL whose (validated) path has the exact
four-segment share shape `/r/<sub>/s/<id>` with non-empty segments,
resolution is decided by the `Location` header of the non-following GET:
an absent, unparsable or off-domain location fails with `InvalidURL`; an
on-domain location resolves to `https://www.reddit.com` plus the
location's path, query and fragment stripped. -/
theorem claim_C3_share_link (input loc : String) (u : GoURL) (sub pid : String)
    (hp : parseGoURL (ensureScheme (trimSpace input)) = some u)
    (hh : u.host ≠ "")
    (hr : containsSubstr u.host "reddit.com" = true)
    (hshape : splitSlash (trimSlashes u.path) = ["r", sub, "s", pid])
    (_hsub : sub ≠ "") (hid : pid ≠ "") :
    (loc = "" → resolveURL loc input = .error .invalidURL)
    ∧ (loc ≠ "" → parseGoURL loc = none → resolveURL loc input = .error .invalidURL)
    ∧ (∀ lu, loc ≠ "" → parseGoURL loc = some lu →
        containsSubstr lu.host "reddit.com" = false →
        resolveURL loc input = .error .invalidURL)
    ∧ (∀ lu, loc ≠ "" → parseGoURL loc = some lu →
        containsSubstr lu.host "reddit.com" = true →
        resolveURL loc input = .ok ("https://www.reddit.com" ++ lu.path)) := by
  have hshare : isShareLink u.path = true := by
    unfold isShareLink
    rw [hshape]
    simp [hid]
  have main : resolveURL loc input =
      (match resolveShareLink loc with
       | .error e => Except.error e
       | .ok u2 => Except.ok ("https://www.reddit.com" ++ u2.path)) := by
    simp only [resolveURL]
    rw [hp]
    simp [hh, hr, hshare]
  refine ⟨?_, ?_, ?_, ?_⟩
  · intro h0
    rw [main]
    simp [resolveShareLink, h0]
  · intro hne hnone
    rw [main]
    simp [resolveShareLink, hne, hnone]
  · intro lu hne hsome hfalse
    rw [main]
    simp [resolveShareLink, hne, hsome, hfalse]
  · intro lu hne hsome htrue
    rw [main]
    simp [resolveShareLink, hne, hsome, htrue]

/-- Witness for claim C3: a concrete share link with an on-domain
`Location` carrying a query and fragment resolves to its path with both
stripped, and one with an off-domain `Location` fails with `InvalidURL`. -/
theorem claim_C3_share_link_witness :
    resolveURL "https://www.reddit.com/r/pics/comments/xyz/t/?sid=1#f"
        "https://www.reddit.com/r/pics/s/abc123"
      = .ok "https://www.reddit.com/r/pics/comments/xyz/t/"
    ∧ resolveURL "https://other.example/r/x"
        "https://www.reddit.com/r/pics/s/abc123"
      = .error .invalidURL := by
  constructor
  · exact (claim_C3_share_link "https://www.reddit.com/r/pics/s/abc123"
      "https://www.reddit.com/r/pics/comments/xyz/t/?sid=1#f"
      ⟨"https", "www.reddit.com", "/r/pics/s/abc123", "", ""⟩ "pics" "abc123"
      (by decide) (by decide) (by decide) (by decide) (by decide) (by decide)).2.2.2
      ⟨"https", "www.reddit.com", "/r/pics/comments/xyz/t/", "sid=1", "f"⟩
      (by decide) (by decide) (by decide)
  · exact (claim_C3_share_link "https://www.reddit.com/r/pics/s/abc123"
      "https://other.example/r/x"
      ⟨"https", "www.reddit.com", "/r/pics/s/abc123", "", ""⟩ "pics" "abc123"
      (by decide) (by decide) (by decide) (by decide) (by decide) (by decide)).2.2.1
      ⟨"https", "other.example", "/r/x", "", ""⟩
      (by decide) (by decide) (by decide)

end RedditGalleryDL
